import Mathlib

/-!
Shallow embedding of the core logic of the cross-timezone meeting planner.

Modelling conventions, chosen to mirror the JavaScript source:
* An instant is an integer number of hours since the Unix epoch (UTC).
  All computations in the source operate at whole-hour or whole-day
  granularity, so hour-instants lose nothing the claims talk about.
* A calendar day is an integer number of days since the Unix epoch.
* A timezone is modelled by its fixed UTC offset in whole hours
  (`moment.tz` conversions become adding the offset).  The runtime
  environment's local timezone (used by `Date.prototype.getDay`,
  `Date.prototype.getFullYear` and `moment(...).format`) is passed
  explicitly as `envOff`; the calendar display timezone as `tz`.
* `date.toISOString().slice(0, 10)` becomes `toISODate (t.fdiv 24)`
  (the UTC calendar day of the instant, formatted YYYY-MM-DD), and
  `moment(d).format('YYYY-MM-DD')` becomes
  `toISODate ((t + envOff).fdiv 24)` (the local calendar day).
* The `holidaysByCountry` object with its `|| []` default becomes a total
  function `String → List HolidayRecord`.
-/

/-- Gregorian calendar date (year, month, day) of a day number counted from
the Unix epoch; the standard civil-from-days computation, matching what
`Date.prototype.getFullYear` / ISO formatting produce for that day. -/
def civilFromDays (z0 : Int) : Int × Nat × Nat :=
  let z := z0 + 719468
  let era : Int := z.fdiv 146097
  let doe : Nat := (z - era * 146097).toNat
  let yoe : Nat := (doe - doe / 1460 + doe / 36524 - doe / 146096) / 365
  let doy : Nat := doe - (365 * yoe + yoe / 4 - yoe / 100)
  let mp : Nat := (5 * doy + 2) / 153
  let d : Nat := doy - (153 * mp + 2) / 5 + 1
  let m : Nat := if mp < 10 then mp + 3 else mp - 9
  ((yoe : Int) + era * 400 + (if m ≤ 2 then 1 else 0), m, d)

/-- Calendar year of an epoch day number (`d.getFullYear()` on a date whose
local calendar day is `z`). -/
def yearOfDay (z : Int) : Int :=
  (civilFromDays z).1

/-- Two-digit zero padding, as in ISO date formatting. -/
def pad2 (n : Nat) : String :=
  if n < 10 then "0" ++ toString n else toString n

/-- Four-digit zero padding for the year, as in ISO date formatting. -/
def pad4 (n : Nat) : String :=
  if n < 10 then "000" ++ toString n
  else if n < 100 then "00" ++ toString n
  else if n < 1000 then "0" ++ toString n
  else toString n

/-- YYYY-MM-DD string of an epoch day number; the `'YYYY-MM-DD'` projection
used throughout the source (`toISOString().slice(0,10)` and
`moment.format('YYYY-MM-DD')`). -/
def toISODate (z : Int) : String :=
  let c := civilFromDays z
  pad4 c.1.toNat ++ "-" ++ pad2 c.2.1 ++ "-" ++ pad2 c.2.2

/-- JavaScript `getDay()` numbering (0 = Sunday … 6 = Saturday) of the
instant `t`, read in the zone with UTC offset `off` hours; the Unix epoch
day was a Thursday, hence the `+ 4`. -/
def dayOfWeekIn (off t : Int) : Int :=
  ((t + off).fdiv 24 + 4).emod 7

/-- One holiday entry as returned by the nager.at API, fields in source
order. -/
structure HolidayRecord where
  date : String
  localName : String
  name : String
  countryCode : String
  type : String
deriving DecidableEq, Repr

/-- A selected participant; `timezone` is the participant's zone, modelled
by its UTC offset in hours. -/
structure Participant where
  id : String
  name : String
  iso2 : String
  timezone : Int
deriving DecidableEq, Repr

/-- Source `isWeekend` (lines 165-168): `date.getDay()` is computed in the
runtime environment's local timezone, whose offset is `envOff`. -/
def isWeekend (envOff t : Int) : Bool :=
  let day := dayOfWeekIn envOff t
  day == 0 || day == 6

/-- Source `isHoliday` (lines 169-174): every selected country code has
some cached record whose `date` equals the queried date's UTC
`YYYY-MM-DD` string (`toISOString().slice(0, 10)`); no `type` check. -/
def isHoliday (countryCodes : List String)
    (holidaysByCountry : String → List HolidayRecord) (t : Int) : Bool :=
  let dstr := toISODate (t.fdiv 24)
  countryCodes.all (fun code =>
    (holidaysByCountry code).any (fun h => h.date == dstr))

/-- Source `isWorkday` (lines 175-181): every country code is
holiday-free on the date and the date is not a weekend (the weekend test
is repeated inside the per-country conjunct, as in the source). -/
def isWorkday (countryCodes : List String)
    (holidaysByCountry : String → List HolidayRecord) (envOff t : Int) : Bool :=
  countryCodes.all (fun code =>
    let dstr := toISODate (t.fdiv 24)
    let isHol := (holidaysByCountry code).any (fun h => h.date == dstr)
    !isHol && !isWeekend envOff t)

/-- Source `isAllPublicHoliday` (lines 229-232): every country code has a
record matching the date's local `YYYY-MM-DD` form
(`moment(d).format('YYYY-MM-DD')`, hence `envOff`) with `type === 'Public'`. -/
def isAllPublicHoliday (countryCodes : List String)
    (holidaysByCountry : String → List HolidayRecord) (envOff t : Int) : Bool :=
  countryCodes.all (fun code =>
    let dstr := toISODate ((t + envOff).fdiv 24)
    (holidaysByCountry code).any (fun h => h.date == dstr && h.type == "Public"))

/-- Source `getYearsInRange` loop body: visit `n` consecutive days starting
at `d`, collecting each day's calendar year into the set. -/
def collectYears : Nat → Int → Finset Int
  | 0, _ => ∅
  | n + 1, d => insert (yearOfDay d) (collectYears n (d + 1))

/-- Source `getYearsInRange` (lines 61-70): walk day by day from `s` while
the day is at most `e`, adding `getFullYear()` of each visited day; an
empty set when the loop never runs. -/
def getYearsInRange (s e : Int) : Finset Int :=
  if s ≤ e then collectYears ((e - s).toNat + 1) s else ∅

/-- Source `handleAddParticipant` (lines 249-253): append unless some
already-selected participant has the same `id`. -/
def handleAddParticipant (participant : Participant)
    (selectedParticipants : List Participant) : List Participant :=
  if selectedParticipants.any (fun p => p.id == participant.id) then
    selectedParticipants
  else
    selectedParticipants ++ [participant]

/-- Source `handleRemoveParticipant` (lines 255-257): keep the participants
whose `id` differs. -/
def handleRemoveParticipant (id : String)
    (selectedParticipants : List Participant) : List Participant :=
  selectedParticipants.filter (fun p => p.id != id)

/-- Mutable state consulted by the holiday-fetch effect: the
`holidaysCache` ref (a per country-code, per year slot, `none` when never
populated) and the `lastFetchKey` ref. -/
structure FetchState where
  cache : String → Int → Option (List HolidayRecord)
  lastFetchKey : String

/-- Source composite fetch key (line 106): joined country codes, a `|`,
then the joined years of the visible range. -/
def fetchKey (codes : List String) (years : List Int) : String :=
  String.intercalate "," codes ++ "|" ++ String.intercalate "," (years.map toString)

/-- Source holiday-fetch effect (lines 103-123), as a step function: given
whether a calendar range is set, the selected country codes and the range's
years, it returns the updated refs together with the list of
(countryCode, year) pairs for which a network fetch was issued. -/
def holidayFetchEffect (hasRange : Bool) (codes : List String) (years : List Int)
    (s : FetchState) : FetchState × List (String × Int) :=
  if !hasRange || codes.isEmpty then (s, [])
  else
    let key := fetchKey codes years
    if s.lastFetchKey == key then (s, [])
    else
      (⟨s.cache, key⟩,
       codes.flatMap (fun code =>
         (years.filter (fun year => (s.cache code year).isNone)).map
           (fun year => (code, year))))

/-- Display-timezone instant at `h:00:00` on the calendar day that the
instant `date` falls on in the display zone `tz`
(`moment(date).tz(tz).hour(h).minute(0).second(0)`). -/
def displayInstant (date tz : Int) (h : Nat) : Int :=
  date + tz - (date + tz).emod 24 + h - tz

/-- Hour-of-day that the display-timezone instant at `h:00:00` shows on
participant `p`'s own local clock (`dt.clone().tz(p.timezone).hour()`). -/
def participantLocalHour (date tz : Int) (h : Nat) (p : Participant) : Int :=
  (displayInstant date tz h + p.timezone).emod 24

/-- Source `getCommonAwakeHours` (lines 272-284): the hours `h` of the
display-timezone day of `date` at which every selected participant's local
hour lies in `[awakeStart, awakeEnd)`. -/
def getCommonAwakeHours (selectedParticipants : List Participant)
    (awakeStart awakeEnd : Int) (date tz : Int) : List Nat :=
  (List.range 24).filter (fun h =>
    selectedParticipants.all (fun p =>
      decide (awakeStart ≤ participantLocalHour date tz h p) &&
      decide (participantLocalHour date tz h p < awakeEnd)))

/-- Sample participant in a UTC-5 zone, used as concrete test data. -/
def pCA : Participant := ⟨"45,-75", "Canada", "CA", -5⟩

/-- Sample participant in a UTC+9 zone, used as concrete test data. -/
def pJP : Participant := ⟨"35,139", "Japan", "JP", 9⟩

/-- Sample participant sharing `pCA`'s id but differing elsewhere. -/
def pCA2 : Participant := ⟨"45,-75", "Canada again", "CA", -5⟩

/-- Sample cache holding only a non-Public record for the US on
2024-07-04 (epoch day 19908, instant 477792 = 19908 * 24). -/
def bankOnlyHolidays : String → List HolidayRecord :=
  fun c =>
    if c = "US" then
      [⟨"2024-07-04", "Independence Day", "Independence Day", "US", "Bank"⟩]
    else []

/-- Sample cache where country AA has a Public holiday on 2024-07-03
(epoch day 19907, a Wednesday, instant 477768) and country BB has none. -/
def lopsidedHolidays : String → List HolidayRecord :=
  fun c =>
    if c = "AA" then [⟨"2024-07-03", "Mid Year", "Mid Year", "AA", "Public"⟩]
    else []

/-- C1: with an empty set of country codes, the source `isHoliday` returns
`true` for every date and every cache — JavaScript `Array.every` is
vacuously true on an empty array — contradicting the required
empty-set-false behaviour; this theorem evaluates the code at the failing
inputs. -/
theorem isHoliday_empty_codes_true (hb : String → List HolidayRecord) (t : Int) :
    isHoliday [] hb t = true := by
  simp [isHoliday]

/-- C3: with zero participants, `getCommonAwakeHours` returns all 24 hours
(the inner `every` is vacuously true for each hour), never the empty
sequence the claim requires; this theorem evaluates the code at the failing
inputs. -/
theorem getCommonAwakeHours_empty_participants (awakeStart awakeEnd date tz : Int) :
    getCommonAwakeHours [] awakeStart awakeEnd date tz = List.range 24 := by
  simp [getCommonAwakeHours]

/-- C6 counterexample: at the instant of Saturday 2024-07-06 00:00 UTC
(477840 hours), with the environment zone at UTC and a display zone at
UTC-1, `isWeekend` returns true although the day-of-week in the display
timezone is Friday — so weekend classification does not follow the display
timezone. -/
theorem isWeekend_display_counterexample :
    ¬ ((isWeekend 0 477840 = true) ↔
       (dayOfWeekIn (-1) 477840 = 0 ∨ dayOfWeekIn (-1) 477840 = 6)) := by
  decide

/-- C6 amended: `isWeekend` is true exactly when the day-of-week computed
in the runtime environment's local timezone (`date.getDay()`) is Sunday (0)
or Saturday (6); the display timezone plays no role. -/
theorem isWeekend_env_dow (envOff t : Int) :
    isWeekend envOff t = true ↔
      (dayOfWeekIn envOff t = 0 ∨ dayOfWeekIn envOff t = 6) := by
  simp [isWeekend]

/-- C8: the holiday-fetch effect issues a fetch only for (countryCode,
year) pairs whose cache slot is still unpopulated, and running the effect
twice in a row with the same inputs issues no fetch at all the second time
(the composite key comparison short-circuits). -/
theorem holidayFetchEffect_dedup (hasRange : Bool) (codes : List String)
    (years : List Int) (s : FetchState) :
    (∀ c y, (c, y) ∈ (holidayFetchEffect hasRange codes years s).2 →
      s.cache c y = none)
  ∧ (holidayFetchEffect hasRange codes years
       (holidayFetchEffect hasRange codes years s).1).2 = [] := by
  by_cases hg : (!hasRange || codes.isEmpty) = true
  · simp [holidayFetchEffect, hg]
  · by_cases hk : (s.lastFetchKey == fetchKey codes years) = true
    · simp [holidayFetchEffect, hg, hk]
    · constructor
      · intro c y hmem
        simp [holidayFetchEffect, hg, hk, Option.isNone_iff_eq_none] at hmem
        exact hmem.2.2
      · simp [holidayFetchEffect, hg, hk]

/-- C2 counterexample: with the single country US whose cache holds only a
`type = "Bank"` record for 2024-07-04, `isHoliday` at the instant
2024-07-04 00:00 UTC (477792 hours) returns true although no record of
type Public matches — the predicate ignores the record type, refuting the
claimed iff. -/
theorem isHoliday_ignores_type_counterexample :
    ¬ ((isHoliday ["US"] bankOnlyHolidays 477792 = true) ↔
       ∀ c ∈ ["US"], ∃ r ∈ bankOnlyHolidays c,
         r.date = toISODate ((477792 : Int).fdiv 24) ∧ r.type = "Public") := by
  decide

/-- C2 amended: for a non-empty country set, `isHoliday` is true iff every
country has a cached record whose date string equals the queried date's
UTC `YYYY-MM-DD` form, with no restriction on the record's type; the
`type = "Public"` restriction is applied only by the separate
`isAllPublicHoliday` highlight predicate, which moreover formats the date
in the environment's local calendar. -/
theorem isHoliday_iff_all_dates_match (cc : List String)
    (hb : String → List HolidayRecord) (t : Int) (hne : cc ≠ []) :
    (isHoliday cc hb t = true ↔
      ∀ c ∈ cc, ∃ r ∈ hb c, r.date = toISODate (t.fdiv 24))
  ∧ (∀ envOff : Int, isAllPublicHoliday cc hb envOff t = true ↔
      ∀ c ∈ cc, ∃ r ∈ hb c,
        r.date = toISODate ((t + envOff).fdiv 24) ∧ r.type = "Public") := by
  constructor
  · simp [isHoliday]
  · intro envOff
    simp [isAllPublicHoliday]

/-- C2 witness: the amended theorem instantiated at the US bank-holiday
cache and the instant 2024-07-04 00:00 UTC. -/
theorem isHoliday_iff_all_dates_match_witness :
    (["US"] ≠ [])
  ∧ ((isHoliday ["US"] bankOnlyHolidays 477792 = true ↔
      ∀ c ∈ ["US"], ∃ r ∈ bankOnlyHolidays c,
        r.date = toISODate ((477792 : Int).fdiv 24))
     ∧ (∀ envOff : Int, isAllPublicHoliday ["US"] bankOnlyHolidays envOff 477792 = true ↔
        ∀ c ∈ ["US"], ∃ r ∈ bankOnlyHolidays c,
          r.date = toISODate (((477792 : Int) + envOff).fdiv 24) ∧ r.type = "Public")) :=
  ⟨by decide, isHoliday_iff_all_dates_match ["US"] bankOnlyHolidays 477792 (by decide)⟩

/-- C5 counterexample: two countries AA and BB, AA has a Public holiday on
Wednesday 2024-07-03 (instant 477768), BB has none, so the date is neither
a weekend nor a group holiday; the claim then requires `isWorkday` to be
true, but the source returns false because `isWorkday` demands every
country be holiday-free. -/
theorem isWorkday_counterexample :
    ¬ ((isWorkday ["AA", "BB"] lopsidedHolidays 0 477768 = true) ↔
       (isWeekend 0 477768 = false
        ∧ isHoliday ["AA", "BB"] lopsidedHolidays 477768 = false)) := by
  decide

/-- C5 amended: for a non-empty country set, `isWorkday` holds iff the date
is not a weekend and no country in the set has any cached record (of any
type) dated on the queried date — a weekday on which some but not all
countries have a holiday is NOT classified as a workday. -/
theorem isWorkday_iff_no_holiday_anywhere (cc : List String)
    (hb : String → List HolidayRecord) (envOff t : Int) (hne : cc ≠ []) :
    isWorkday cc hb envOff t = true ↔
      (isWeekend envOff t = false
       ∧ ∀ c ∈ cc, ∀ r ∈ hb c, r.date ≠ toISODate (t.fdiv 24)) := by
  cases cc with
  | nil => exact absurd rfl hne
  | cons c cs =>
    simp only [isWorkday, List.all_eq_true, Bool.and_eq_true, Bool.not_eq_true',
      List.any_eq_false, beq_iff_eq]
    constructor
    · intro hw
      exact ⟨(hw c (List.mem_cons_self c cs)).2,
        fun code hcode => (hw code hcode).1⟩
    · intro hw code hcode
      exact ⟨hw.2 code hcode, hw.1⟩

/-- C5 witness: the amended theorem instantiated at a single holiday-free
country on the weekday 2024-07-03. -/
theorem isWorkday_iff_no_holiday_anywhere_witness :
    (["CA"] ≠ [])
  ∧ (isWorkday ["CA"] (fun _ => []) 0 477768 = true ↔
      (isWeekend 0 477768 = false
       ∧ ∀ c ∈ ["CA"], ∀ r ∈ ([] : List HolidayRecord),
           r.date ≠ toISODate ((477768 : Int).fdiv 24))) :=
  ⟨by decide, isWorkday_iff_no_holiday_anywhere ["CA"] (fun _ => []) 0 477768 (by decide)⟩

/-- C9: adding a participant whose id is already present leaves the list
unchanged, removing an absent id leaves the list unchanged, adding the same
participant twice mutates the list only once, and both operations preserve
the invariant that ids are pairwise distinct. -/
theorem registry_idempotent (l : List Participant) (p padd : Participant)
    (i irem : String) (h1 : ∃ q ∈ l, q.id = p.id) (h2 : ∀ q ∈ l, q.id ≠ i)
    (h3 : (l.map Participant.id).Nodup) :
    handleAddParticipant p l = l
  ∧ handleRemoveParticipant i l = l
  ∧ handleAddParticipant padd (handleAddParticipant padd l)
      = handleAddParticipant padd l
  ∧ ((handleAddParticipant padd l).map Participant.id).Nodup
  ∧ ((handleRemoveParticipant irem l).map Participant.id).Nodup := by
  obtain ⟨q, hq, hqid⟩ := h1
  have hadd : l.any (fun r => r.id == p.id) = true :=
    List.any_eq_true.mpr ⟨q, hq, beq_iff_eq.mpr hqid⟩
  refine ⟨?_, ?_, ?_, ?_, ?_⟩
  · simp [handleAddParticipant, hadd]
  · exact List.filter_eq_self.mpr fun r hr => bne_iff_ne.mpr (h2 r hr)
  · by_cases hmem : l.any (fun r => r.id == padd.id) = true
    · simp [handleAddParticipant, hmem]
    · have happ : (l ++ [padd]).any (fun r => r.id == padd.id) = true := by
        simp [List.any_append]
      simp [handleAddParticipant, hmem, happ]
  · by_cases hmem : l.any (fun r => r.id == padd.id) = true
    · simp [handleAddParticipant, hmem, h3]
    · have hall : ∀ r ∈ l, r.id ≠ padd.id := by
        intro r hr hre
        exact hmem (List.any_eq_true.mpr ⟨r, hr, beq_iff_eq.mpr hre⟩)
      have hnotin : padd.id ∉ l.map Participant.id := by
        intro hc
        obtain ⟨r, hr, hrid⟩ := List.mem_map.mp hc
        exact hall r hr hrid
      simp only [handleAddParticipant, if_neg hmem, List.map_append,
        List.map_cons, List.map_nil]
      rw [List.nodup_append_comm]
      exact List.nodup_cons.mpr ⟨hnotin, h3⟩
  · exact h3.sublist ((List.filter_sublist l).map Participant.id)

/-- C9 witness: the registry theorem instantiated at a one-element list,
an add of a participant with the same id, a remove of an absent id, an
arbitrary further add/remove. -/
theorem registry_idempotent_witness :
    (∃ q ∈ [pCA], q.id = pCA2.id)
  ∧ (∀ q ∈ [pCA], q.id ≠ "0,0")
  ∧ ([pCA].map Participant.id).Nodup
  ∧ (handleAddParticipant pCA2 [pCA] = [pCA]
     ∧ handleRemoveParticipant "0,0" [pCA] = [pCA]
     ∧ handleAddParticipant pJP (handleAddParticipant pJP [pCA])
         = handleAddParticipant pJP [pCA]
     ∧ ((handleAddParticipant pJP [pCA]).map Participant.id).Nodup
     ∧ ((handleRemoveParticipant "45,-75" [pCA]).map Participant.id).Nodup) :=
  ⟨by decide, by decide, by decide,
   registry_idempotent [pCA] pCA2 pJP "0,0" "45,-75"
     (by decide) (by decide) (by decide)⟩

/-- C10: with at least one participant and a degenerate awake window
(awakeEnd at most awakeStart), no hour can satisfy
`awakeStart <= hour < awakeEnd`, so `getCommonAwakeHours` returns the empty
sequence — the window never wraps past midnight. -/
theorem getCommonAwakeHours_degenerate_window (ps : List Participant)
    (awakeStart awakeEnd date tz : Int) (hne : ps ≠ [])
    (hwin : awakeEnd ≤ awakeStart) :
    getCommonAwakeHours ps awakeStart awakeEnd date tz = [] := by
  cases ps with
  | nil => exact absurd rfl hne
  | cons p rest =>
    refine List.filter_eq_nil_iff.mpr fun h _ hc => ?_
    rw [List.all_cons, Bool.and_eq_true] at hc
    obtain ⟨hc1, _⟩ := hc
    simp only [Bool.and_eq_true, decide_eq_true_iff] at hc1
    omega

/-- C10 witness: a single participant with the night window 22-to-6 yields
no common hours. -/
theorem getCommonAwakeHours_degenerate_window_witness :
    ([pCA] ≠ []) ∧ ((6 : Int) ≤ 22)
  ∧ getCommonAwakeHours [pCA] 22 6 0 0 = [] :=
  ⟨by decide, by decide,
   getCommonAwakeHours_degenerate_window [pCA] 22 6 0 0 (by decide) (by decide)⟩

/-- C4: for a non-empty participant list, `getCommonAwakeHours` is a
strictly increasing list of hours below 24, and an hour belongs to it
exactly when every participant's local hour at the display-timezone
instant `h:00:00` of the date lies in `[awakeStart, awakeEnd)`. -/
theorem getCommonAwakeHours_spec (ps : List Participant)
    (awakeStart awakeEnd date tz : Int) (hne : ps ≠ []) :
    List.Pairwise (· < ·) (getCommonAwakeHours ps awakeStart awakeEnd date tz)
  ∧ ∀ h : Nat, h ∈ getCommonAwakeHours ps awakeStart awakeEnd date tz ↔
      (h < 24 ∧ ∀ p ∈ ps,
        awakeStart ≤ participantLocalHour date tz h p
        ∧ participantLocalHour date tz h p < awakeEnd) := by
  constructor
  · exact (List.pairwise_lt_range 24).filter _
  · intro h
    simp [getCommonAwakeHours, List.mem_filter, List.mem_range,
      List.all_eq_true, Bool.and_eq_true, decide_eq_true_iff]

/-- C4 witness: the specification theorem instantiated at two participants
in UTC-5 and UTC+9 with the default 8-to-22 window. -/
theorem getCommonAwakeHours_spec_witness :
    ([pCA, pJP] ≠ [])
  ∧ (List.Pairwise (· < ·) (getCommonAwakeHours [pCA, pJP] 8 22 0 0)
     ∧ ∀ h : Nat, h ∈ getCommonAwakeHours [pCA, pJP] 8 22 0 0 ↔
        (h < 24 ∧ ∀ p ∈ [pCA, pJP],
          8 ≤ participantLocalHour 0 0 h p
          ∧ participantLocalHour 0 0 h p < 22)) :=
  ⟨by decide, getCommonAwakeHours_spec [pCA, pJP] 8 22 0 0 (by decide)⟩

/-- Membership in the day-walk: a year is collected over `n` consecutive
days starting at `d` iff some visited day has that calendar year. -/
theorem mem_collectYears (n : Nat) : ∀ d y : Int,
    y ∈ collectYears n d ↔ ∃ i : Nat, i < n ∧ yearOfDay (d + i) = y := by
  induction n with
  | zero =>
    intro d y
    simp [collectYears]
  | succ m ih =>
    intro d y
    simp only [collectYears, Finset.mem_insert, ih]
    constructor
    · rintro (rfl | ⟨i, hi, rfl⟩)
      · exact ⟨0, Nat.succ_pos m, by simp⟩
      · refine ⟨i + 1, by omega, ?_⟩
        congr 1
        push_cast
        ring
    · rintro ⟨i, hi, rfl⟩
      cases i with
      | zero =>
        left
        simp
      | succ j =>
        right
        refine ⟨j, by omega, ?_⟩
        congr 1
        push_cast
        ring

/-- C7: for start at most end, `getYearsInRange` is exactly the set of
calendar years of the days from start to end inclusive, and in particular
contains the end day's calendar year. -/
theorem getYearsInRange_spec (s e : Int) (hse : s ≤ e) :
    (∀ y, y ∈ getYearsInRange s e ↔ ∃ d : Int, s ≤ d ∧ d ≤ e ∧ yearOfDay d = y)
  ∧ yearOfDay e ∈ getYearsInRange s e := by
  have hmem : ∀ y, y ∈ getYearsInRange s e ↔
      ∃ d : Int, s ≤ d ∧ d ≤ e ∧ yearOfDay d = y := by
    intro y
    rw [getYearsInRange, if_pos hse, mem_collectYears]
    constructor
    · rintro ⟨i, hi, rfl⟩
      exact ⟨s + i, by omega, by omega, rfl⟩
    · rintro ⟨d, hsd, hde, rfl⟩
      refine ⟨(d - s).toNat, by omega, ?_⟩
      congr 1
      omega
  exact ⟨hmem, (hmem _).mpr ⟨e, hse, le_refl e, rfl⟩⟩

/-- C7 witness: the range from 2023-12-31 (day 19722) to 2024-01-01
(day 19723) crosses a year boundary and contains the end day's year. -/
theorem getYearsInRange_spec_witness :
    ((19722 : Int) ≤ 19723)
  ∧ yearOfDay 19723 ∈ getYearsInRange 19722 19723 :=
  ⟨by decide, (getYearsInRange_spec 19722 19723 (by decide)).2⟩
